import Mathlib

/-!
Verification development for the storage-engine adaptation layer
(`src/rocks_engine.cpp`): prefix-based keyspace multiplexing, startup
recovery, deferred deletion via a compaction filter, the durability pacer
loop, store-open recovery, and admission-control resizing.

Keys are modelled as byte lists (`List Nat`, each entry one byte).
Machine integers are modelled as `Nat`/`Int` with explicit reduction
modulo `2^32` where the C++ uses `uint32_t` arithmetic.
-/

set_option autoImplicit false

namespace RocksVerify

/-- One byte-string key of the store. -/
abbrev ByteKey := List Nat

/-- The C++ cast `static_cast<uint32_t>` applied to an `int` value. -/
def uint32OfInt (i : Int) : Nat := (i % 4294967296).toNat

/-- The C++ cast `static_cast<int32_t>` applied to a `uint32_t` value, as stored by
`configBuilder.append("prefix", static_cast<int32_t>(prefix))`. -/
def int32OfNat (p : Nat) : Int :=
  if p % 4294967296 < 2147483648 then ((p % 4294967296 : Nat) : Int)
  else ((p % 4294967296 : Nat) : Int) - 4294967296

/-- Increment of a `uint32_t` counter (the C++ `++_maxPrefix`). -/
def uinc (x : Nat) : Nat := (x + 1) % 4294967296

/-- Code of `extractPrefix` (rocks_engine.cpp:127): a key shorter than 4 bytes
yields no prefix; otherwise the leading 4 bytes are decoded as a
big-endian 32-bit integer (`endian::bigToNative`). -/
def extractPrefix : ByteKey → Option Nat
  | b0 :: b1 :: b2 :: b3 :: _ => some (((b0 * 256 + b1) * 256 + b2) * 256 + b3)
  | _ => none

/-- Code of `encodePrefix` (rocks_engine.cpp:135): the 4-byte big-endian encoding
of a 32-bit prefix. -/
def encodePrefix (p : Nat) : ByteKey :=
  [p / 16777216 % 256, p / 65536 % 256, p / 256 % 256, p % 256]

/-- Bytes of `RocksEngine::kMetadataPrefix`: the string literal spells
`"\0\0\0\0metadata-"` but the explicit length 12 truncates the dash, so
the actual prefix is the 4 zero bytes followed by `metadata`. -/
def kMetadataPrefix : ByteKey := [0, 0, 0, 0, 109, 101, 116, 97, 100, 97, 116, 97]

/-- Bytes of `RocksEngine::kDroppedPrefix`: `"\0\0\0\0droppedprefix-"`, 18 bytes. -/
def kDroppedPrefix : ByteKey :=
  [0, 0, 0, 0, 100, 114, 111, 112, 112, 101, 100, 112, 114, 101, 102, 105, 120, 45]

/-! ## Compaction filter (`PrefixDeletingCompactionFilter`) -/

/-- The mutable members of `PrefixDeletingCompactionFilter`: the
single-entry last-prefix cache `_prefixCache` and its cached answer
`_droppedCache`. -/
structure FilterState where
  prefixCache : Nat
  droppedCache : Bool
  deriving Repr, DecidableEq

/-- Constructor state of the filter: `_prefixCache(0), _droppedCache(false)`. -/
def filterInit : FilterState := ⟨0, false⟩

/-- One call of `PrefixDeletingCompactionFilter::Filter` on one key:
returns the keep/drop answer together with the updated cache state.
A key shorter than 4 bytes is left untouched; a cache hit returns the
cached answer; otherwise the snapshot set is consulted and cached. -/
def filterStep (dropped : List Nat) (st : FilterState) (key : ByteKey) :
    Bool × FilterState :=
  match extractPrefix key with
  | none => (false, st)
  | some p =>
    if p = st.prefixCache then (st.droppedCache, st)
    else
      let d := dropped.contains p
      (d, ⟨p, d⟩)

/-- The sequence of `Filter` answers produced by one filter instance on a
sequence of keys, threading the cache state. -/
def runFilter (dropped : List Nat) (st : FilterState) : List ByteKey → List Bool
  | [] => []
  | k :: ks =>
    let (b, st1) := filterStep dropped st k
    b :: runFilter dropped st1 ks

/-- The per-key decision as the specification words it: too-short keys are
kept, any other key is dropped iff its decoded leading prefix is a member
of the snapshot. (Stated from the spec, to be compared with `runFilter`.) -/
def filterSpecAnswer (dropped : List Nat) (key : ByteKey) : Bool :=
  match extractPrefix key with
  | none => false
  | some p => dropped.contains p

/-- Code of `PrefixDeletingCompactionFilterFactory::CreateCompactionFilter`:
an empty snapshot installs no filter (null); otherwise a filter instance
is built from the moved snapshot. The filter object is represented by its
snapshot set (its cache always starts at `filterInit`). -/
def createCompactionFilter (droppedPrefixes : List Nat) : Option (List Nat) :=
  if droppedPrefixes.length = 0 then none else some droppedPrefixes

/-- Behaviour of a compaction run under the factory's result: with no
filter installed every key is kept; with a filter installed the filter is
consulted starting from its constructor state. -/
def runMaybeFilter (f : Option (List Nat)) (keys : List ByteKey) : List Bool :=
  match f with
  | none => keys.map (fun _ => false)
  | some s => runFilter s filterInit keys

/-! ## Engine state and ident operations (`RocksEngine`) -/

/-- A logical-table identifier, as its byte string. -/
abbrev Ident := List Nat

/-- The decoded BSON config record stored per ident: the integer `prefix`
field (`none` models a missing or non-numeric field) plus the remaining
config payload added by the caller's `configBuilder` (abstracted). -/
structure BsonCfg where
  prefixField : Option Int
  extra : List Nat
  deriving Repr, DecidableEq

/-- Map lookup, `_identMap.find(ident)`. -/
def findCfg : List (Ident × BsonCfg) → Ident → Option BsonCfg
  | [], _ => none
  | (k, v) :: rest, ident => if k = ident then some v else findCfg rest ident

/-- Map assignment `_identMap[ident] = config`: overwrite the entry if the key is
present, otherwise append a new entry. -/
def assocInsert : List (Ident × BsonCfg) → Ident → BsonCfg → List (Ident × BsonCfg)
  | [], ident, cfg => [(ident, cfg)]
  | (k, v) :: rest, ident, cfg =>
    if k = ident then (ident, cfg) :: rest else (k, v) :: assocInsert rest ident cfg

/-- Map erasure, `_identMap.erase(ident)`. -/
def assocErase : List (Ident × BsonCfg) → Ident → List (Ident × BsonCfg)
  | [], _ => []
  | (k, v) :: rest, ident => if k = ident then rest else (k, v) :: assocErase rest ident

/-- The in-memory engine state touched by the ident operations:
`_identMap`, `_droppedPrefixes`, `_oplogIdent` and `_maxPrefix`. -/
structure EngineState where
  identMap : List (Ident × BsonCfg)
  droppedPrefixes : List Nat
  oplogIdent : Ident
  maxPrefix : Nat
  deriving Repr, DecidableEq

/-- Persistent keys written or deleted by the ident operations. -/
inductive DbKey where
  /-- the key `kMetadataPrefix + ident` -/
  | metadataKey (ident : Ident)
  /-- the bare `encodePrefix(p)` allocation-marker key -/
  | prefixMarker (p : Nat)
  /-- `kDroppedPrefix + encodePrefix(p)` -/
  | droppedMarker (p : Nat)
  deriving Repr, DecidableEq

/-- Result of `RocksEngine::_createIdent` / `createOplogStore`: the
returned status, the engine state after the call, the persistent puts
that were performed, and the prefix allocated by this call (if any). -/
structure CreateOutcome where
  ok : Bool
  engine : EngineState
  puts : List DbKey
  allocated : Option Nat
  deriving Repr, DecidableEq

/-- Code of `RocksEngine::_createIdent` (rocks_engine.cpp:754): if the ident is
already registered, return OK without touching anything. Otherwise
allocate `++_maxPrefix`, append the `prefix` field to the caller's config
(`extra`), insert into `_identMap`, then put the metadata record and — if
that put succeeded — the bare prefix-marker key. `put1Ok`/`put2Ok` inject
the outcome of the two store puts. -/
def createIdentM (e : EngineState) (ident : Ident) (extra : List Nat)
    (put1Ok put2Ok : Bool) : CreateOutcome :=
  match findCfg e.identMap ident with
  | some _ => ⟨true, e, [], none⟩
  | none =>
    let p := uinc e.maxPrefix
    let cfg : BsonCfg := ⟨some (int32OfNat p), extra⟩
    let e1 : EngineState := { e with maxPrefix := p, identMap := assocInsert e.identMap ident cfg }
    if put1Ok then ⟨put2Ok, e1, [.metadataKey ident, .prefixMarker p], some p⟩
    else ⟨false, e1, [.metadataKey ident], some p⟩

/-- Code of `RocksEngine::createOplogStore` (rocks_engine.cpp:486): if the ident
is already registered, return OK without touching anything. Otherwise
allocate `++_maxPrefix`, register it, put the metadata record and (on
success) the prefix marker, set `_oplogIdent`, then reserve the oplog-key
tracker prefix `++_maxPrefix` and put its marker. The returned status is
the status of that final tracker put (the local `s` is overwritten
unconditionally before `rocksToMongoStatus(s)` is returned). -/
def createOplogStoreM (e : EngineState) (ident : Ident)
    (putMetaOk putMarkerOk putTrackerOk : Bool) : CreateOutcome :=
  match findCfg e.identMap ident with
  | some _ => ⟨true, e, [], none⟩
  | none =>
    let p := uinc e.maxPrefix
    let cfg : BsonCfg := ⟨some (int32OfNat p), []⟩
    let e1 : EngineState :=
      { e with maxPrefix := p, identMap := assocInsert e.identMap ident cfg,
               oplogIdent := ident }
    let tp := uinc e1.maxPrefix
    let e2 : EngineState := { e1 with maxPrefix := tp }
    let puts :=
      (if putMetaOk then [DbKey.metadataKey ident, DbKey.prefixMarker p]
       else [DbKey.metadataKey ident]) ++ [DbKey.prefixMarker tp]
    let _ := putMarkerOk
    ⟨putTrackerOk, e2, puts, some p⟩

/-- Code of `RocksEngine::createRecordStore` (rocks_engine.cpp:476): dispatch on
`NamespaceString::oplog(ns)`. -/
def createRecordStoreM (e : EngineState) (isOplogNs : Bool) (ident : Ident)
    (b1 b2 b3 : Bool) : CreateOutcome :=
  if isOplogNs then createOplogStoreM e ident b1 b2 b3
  else createIdentM e ident [] b1 b2

/-- Code of `RocksEngine::createSortedDataInterface` (rocks_engine.cpp:564):
the index adds its own config fields (`extra`), then `_createIdent`. -/
def createSortedDataInterfaceM (e : EngineState) (ident : Ident) (extra : List Nat)
    (b1 b2 : Bool) : CreateOutcome :=
  createIdentM e ident extra b1 b2

/-- Result of `RocksEngine::_getIdentConfig` (rocks_engine.cpp:785).
The `notFound` constructor exists so that the specification's claimed
NotFound behaviour is expressible; the code itself never produces it:
an unknown ident hits `invariant(identIter != _identMap.end())`. -/
inductive LookupResult where
  | invariantFailure
  | notFound
  | found (cfg : BsonCfg)
  deriving Repr, DecidableEq

/-- Code of `RocksEngine::_getIdentConfig`: unknown ident fires the invariant
(process abort); otherwise the stored config is returned by value
(`identIter->second.copy()`), leaving the registry untouched. -/
def getIdentConfigM (e : EngineState) (ident : Ident) : LookupResult :=
  match findCfg e.identMap ident with
  | none => .invariantFailure
  | some cfg => .found cfg

/-! ## dropIdent (`RocksEngine::dropIdent`) -/

/-- The atomic write batch built by `dropIdent`: the metadata-key delete,
the drop-marker puts, and the `WriteOptions::sync` flag it is written with. -/
structure DropBatch where
  deletes : List DbKey
  puts : List DbKey
  sync : Bool
  deriving Repr, DecidableEq

/-- Result of `RocksEngine::dropIdent`. `fatalUnregistered` models the
`invariant` inside `_getIdentConfig` firing for an unregistered ident;
`writeFailed` carries the engine state after the early error return
(together with the batch whose durable write failed); `ok` carries the
updated state, the batch, and the prefixes handed to
`_compactionScheduler->compactDroppedPrefix`. -/
inductive DropOutcome where
  | fatalUnregistered
  | writeFailed (e : EngineState) (batch : DropBatch)
  | ok (e : EngineState) (batch : DropBatch) (scheduled : List Nat)
  deriving Repr, DecidableEq

/-- Modelled from the spec: `rocksGetNextPrefix` (rocks_util, not under
`src/`) computes the secondary reserved prefix stored "at prefix+1" —
the successor of the encoded big-endian prefix, as a `uint32_t`. -/
def rocksGetNextPrefixM (p : Nat) : Nat := (p + 1) % 4294967296

/-- The `prefixesToDrop` vector of `dropIdent` (rocks_engine.cpp:605):
the prefix decoded from the ident's config (`numberInt` of the `prefix`
field, 0 if absent, cast to `uint32_t`), followed by the next prefix when
the ident is `_oplogIdent`. -/
def dropPrefixesOf (e : EngineState) (ident : Ident) (cfg : BsonCfg) : List Nat :=
  if e.oplogIdent = ident then
    [uint32OfInt (cfg.prefixField.getD 0),
     rocksGetNextPrefixM (uint32OfInt (cfg.prefixField.getD 0))]
  else [uint32OfInt (cfg.prefixField.getD 0)]

/-- The write batch of `dropIdent` (rocks_engine.cpp:601-621): the
metadata-key delete, one drop-marker put per retired prefix, written with
`WriteOptions::sync = true`. -/
def dropBatchOf (e : EngineState) (ident : Ident) (cfg : BsonCfg) : DropBatch :=
  ⟨[.metadataKey ident], (dropPrefixesOf e ident cfg).map .droppedMarker, true⟩

/-- Code of `RocksEngine::dropIdent` (rocks_engine.cpp:600): build one write
batch deleting the metadata key and putting a drop-marker for every
prefix being retired (the ident's own prefix, plus the next prefix when
the ident is `_oplogIdent`); write it with `sync = true`. Only if that
write succeeds: erase the ident from `_identMap`, insert the prefixes
into `_droppedPrefixes`, and schedule a purge compaction per prefix.
On write failure the translated error is returned with the in-memory
state untouched. `writeOk` injects the outcome of the durable write. -/
def dropIdentM (e : EngineState) (ident : Ident) (writeOk : Bool) : DropOutcome :=
  match findCfg e.identMap ident with
  | none => .fatalUnregistered
  | some cfg =>
    if writeOk then
      .ok { e with identMap := assocErase e.identMap ident,
                   droppedPrefixes := e.droppedPrefixes ++ dropPrefixesOf e ident cfg }
        (dropBatchOf e ident cfg) (dropPrefixesOf e ident cfg)
    else .writeFailed e (dropBatchOf e ident cfg)

/-- Code of `RocksEngine::getDroppedPrefixes` (rocks_engine.cpp:746): a copy of
the current dropped-prefix set. -/
def getDroppedPrefixes (e : EngineState) : List Nat := e.droppedPrefixes

/-! ## Startup recovery (`RocksEngine::RocksEngine`, rocks_engine.cpp:306) -/

/-- One store entry: a raw byte key and its value decoded as a config
record where the recovery scan reads one (`⟨none, []⟩` for the empty
values of marker keys). The whole store is the key-sorted entry list the
constructor's iterator walks. -/
abbrev StoreEntry := ByteKey × BsonCfg

/-- The fatal `invariant` failures of the constructor's scans. -/
inductive RecoveryFatal where
  /-- the last key of a non-empty store is shorter than 4 bytes -/
  | shortLastKey
  /-- a metadata record whose `prefix` field is missing or non-numeric -/
  | corruptMetadata
  /-- a drop-marker key whose suffix is shorter than 4 bytes -/
  | shortDroppedKey
  deriving Repr, DecidableEq

/-- The engine state rebuilt by recovery: `_identMap`, `_maxPrefix`,
`_droppedPrefixes`, and the encoded prefixes handed to
`compactDroppedPrefix` for re-enqueued purges. -/
structure RecoveredState where
  identMap : List (Ident × BsonCfg)
  maxPrefix : Nat
  droppedPrefixes : List Nat
  compactionsScheduled : List ByteKey
  deriving Repr, DecidableEq

/-- The metadata-range loop (rocks_engine.cpp:322): for every key with
prefix `kMetadataPrefix`, reject a missing/non-numeric `prefix` field as
corruption, store the whole config under the ident (the key minus the
12-byte prefix), and raise the running maximum by the field cast to
`uint32_t`. -/
def scanMeta (acc : List (Ident × BsonCfg)) (mp : Nat) :
    List StoreEntry → Except RecoveryFatal (List (Ident × BsonCfg) × Nat)
  | [] => .ok (acc, mp)
  | entry :: rest =>
    match entry.2.prefixField with
    | none => .error .corruptMetadata
    | some i =>
      scanMeta (assocInsert acc (entry.1.drop 12) entry.2) (max mp (uint32OfInt i)) rest

/-- The dropped-prefix-range loop (rocks_engine.cpp:352): for every key
with prefix `kDroppedPrefix`, decode the 4-byte suffix (fatal if too
short), insert it into the dropped set and schedule a purge compaction
for the encoded suffix. -/
def scanDropped : List StoreEntry → Except RecoveryFatal (List Nat × List ByteKey)
  | [] => .ok ([], [])
  | entry :: rest =>
    match extractPrefix (entry.1.drop 18) with
    | none => .error .shortDroppedKey
    | some p =>
      match scanDropped rest with
      | .error f => .error f
      | .ok (ds, sched) => .ok (p :: ds, entry.1.drop 18 :: sched)

/-- The seek-to-last step and the final maximum of the metadata scan:
an empty store keeps the counter at its initial 0, a non-empty store
decodes the last key's prefix (fatal if shorter than 4 bytes), then the
metadata scan raises it. -/
def recoverScanMax (store : List StoreEntry) :
    Except RecoveryFatal (List (Ident × BsonCfg) × Nat) :=
  match store.getLast? with
  | none => scanMeta [] 0 (store.filter (fun e => kMetadataPrefix.isPrefixOf e.1))
  | some last =>
    match extractPrefix last.1 with
    | none => .error .shortLastKey
    | some p => scanMeta [] p (store.filter (fun e => kMetadataPrefix.isPrefixOf e.1))

/-- The whole recovery path of the constructor: seek-to-last, metadata
scan, the unconditional `++_maxPrefix` extra slot (a wrapping `uint32_t`
increment, `uinc`), then the drop-marker scan. -/
def recover (store : List StoreEntry) : Except RecoveryFatal RecoveredState :=
  match recoverScanMax store with
  | .error f => .error f
  | .ok (m, mp) =>
    match scanDropped (store.filter (fun e => kDroppedPrefix.isPrefixOf e.1)) with
    | .error f => .error f
    | .ok (ds, sched) => .ok ⟨m, uinc mp, ds, sched⟩

/-- The engine state a freshly recovered store yields (`_oplogIdent`
starts empty; it is only assigned by the oplog paths). -/
def engineOfRecovered (r : RecoveredState) : EngineState :=
  ⟨r.identMap, r.droppedPrefixes, [], r.maxPrefix⟩

/-- The engine freshly recovered from an empty store. -/
def freshEngine : EngineState :=
  match recover [] with
  | .ok r => engineOfRecovered r
  | .error _ => ⟨[], [], [], 0⟩

/-! ## Sequences of create operations (for the counter invariant) -/

/-- One create operation presented to the engine, with the injected
outcomes of its store puts. -/
inductive EngineOp where
  | createRecordStore (isOplogNs : Bool) (ident : Ident) (b1 b2 b3 : Bool)
  | createSortedData (ident : Ident) (extra : List Nat) (b1 b2 : Bool)
  deriving Repr, DecidableEq

/-- Apply one create operation. -/
def applyOp (e : EngineState) : EngineOp → CreateOutcome
  | .createRecordStore isOplogNs ident b1 b2 b3 => createRecordStoreM e isOplogNs ident b1 b2 b3
  | .createSortedData ident extra b1 b2 => createSortedDataInterfaceM e ident extra b1 b2

/-- Run a sequence of create operations, collecting every prefix
allocated (returned) to a caller. -/
def runEngineOps (e : EngineState) : List EngineOp → EngineState × List Nat
  | [] => (e, [])
  | op :: rest =>
    let r := applyOp e op
    let (e1, ps) := runEngineOps r.engine rest
    (e1, r.allocated.toList ++ ps)

/-! ## Store open (`RocksEngine::openDB`, rocks_engine.cpp:405) -/

/-- The column-family shape of the on-disk store, plus whether the
`"\0\0\0\0ReopenTag"` marker key (written on every successful open by
this code) is present. -/
structure DBState where
  dbExists : Bool
  hasOplogCF : Bool
  hasReopenTag : Bool
  deriving Repr, DecidableEq

/-- Whether `DB::Open`/`OpenForReadOnly` with the requested descriptor
list succeeds: an existing store must be opened with exactly its column
families listed; a missing store is created (`create_if_missing`) only by
a writable open requesting just the default family (an extra descriptor
refers to a family that does not exist yet, and a read-only open cannot
create). -/
def openAttemptOk (st : DBState) (useSeparateOplogCF readOnly : Bool) : Bool :=
  if st.dbExists then useSeparateOplogCF == st.hasOplogCF
  else !readOnly && !useSeparateOplogCF

/-- Result of `openDB`. The fatal constructors are the three
`mongo::quickExit(1)` sites; `outOfFuel` is the artefact of the fuelled
recursion and is proved unreachable for fuel at least 2. -/
inductive OpenResult where
  | ok
  | fatalPlainOpenFailed
  /-- case 2: `"Inconsistent Oplog Option, UseSeparateOplogCF should be false"` -/
  | fatalShouldBeFalse
  /-- case 1: `"Inconsistent Oplog Option, UseSeparateOplogCF should be true"` -/
  | fatalShouldBeTrue
  | outOfFuel
  deriving Repr, DecidableEq

/-- Code of `RocksEngine::openDB`, with its self-recursion made explicit through
`fuel`: try the open with the requested descriptors; on success write the
reopen tag (a plain put, a no-op on a read-only open) and return. On
failure with the separate oplog family requested, reopen plain (fatal if
even that fails), consult the reopen tag (present: fatal case 2), else
create the oplog family and recur; on failure without the separate
family requested, fatal case 1. -/
def openDB (fuel : Nat) (st : DBState) (useSeparateOplogCF readOnly : Bool) :
    OpenResult × DBState :=
  match fuel with
  | 0 => (.outOfFuel, st)
  | fuel + 1 =>
    if openAttemptOk st useSeparateOplogCF readOnly then
      (.ok, { st with dbExists := true,
                      hasReopenTag := st.hasReopenTag || !readOnly })
    else
      if useSeparateOplogCF then
        if st.dbExists || !readOnly then
          let st1 : DBState := { st with dbExists := true }
          if st1.hasReopenTag then (.fatalShouldBeFalse, st1)
          else openDB fuel { st1 with hasOplogCF := true } useSeparateOplogCF readOnly
        else (.fatalPlainOpenFailed, st)
      else (.fatalShouldBeTrue, st)

/-! ## Durability pacer (`RocksEngine::RocksJournalFlusher`) -/

/-- Error codes observable from `waitUntilDurable` via `UserException`. -/
inductive FlusherECode where
  | shutdownInProgress
  | other
  deriving Repr, DecidableEq

/-- The observable actions of one pacer-loop iteration. -/
inductive FlusherEvent where
  /-- the `waitUntilDurable(false)` call forcing the write-ahead log durable -/
  | forceDurable
  /-- `sleepmillis(ms)` -/
  | sleep (ms : Nat)
  deriving Repr, DecidableEq

/-- The environment of one loop iteration: the `_shuttingDown` flag as
read at the loop head, the outcome of `waitUntilDurable` (`none` =
success, `some c` = `UserException` with code `c`), and the configured
`journalCommitIntervalMs` value as read this iteration. -/
structure FlusherIter where
  shuttingDown : Bool
  waitError : Option FlusherECode
  configMs : Nat
  deriving Repr, DecidableEq

/-- The interval computation `ms = journalCommitIntervalMs; if (!ms) ms = 100`. -/
def effectiveIntervalMs (configMs : Nat) : Nat := if configMs = 0 then 100 else configMs

/-- Result of running (part of) the pacer loop: the trace of observable
events, or the fatal `invariant` failure. -/
inductive FlusherResult where
  | events (evs : List FlusherEvent)
  | invariantFailure
  deriving Repr, DecidableEq

/-- One execution of the loop body (rocks_engine.cpp:96-110): call
`waitUntilDurable` first — a `ShutdownInProgress` failure is swallowed by
the catch, any other code fails `invariant(e.getCode() ==
ErrorCodes::ShutdownInProgress)` — then sleep the effective interval. -/
def flusherBody (it : FlusherIter) : FlusherResult :=
  match it.waitError with
  | some c =>
    if c = .shutdownInProgress then
      .events [.forceDurable, .sleep (effectiveIntervalMs it.configMs)]
    else .invariantFailure
  | none => .events [.forceDurable, .sleep (effectiveIntervalMs it.configMs)]

/-- The pacer loop over a sequence of iteration environments: it exits as
soon as a loop-head read observes `_shuttingDown`, running no further
body; `shutdown()` sets the flag and joins, returning only after this
loop function has returned. -/
def flusherRun : List FlusherIter → FlusherResult
  | [] => .events []
  | it :: rest =>
    if it.shuttingDown then .events []
    else
      match flusherBody it with
      | .invariantFailure => .invariantFailure
      | .events evs =>
        match flusherRun rest with
        | .invariantFailure => .invariantFailure
        | .events evs1 => .events (evs ++ evs1)

/-- rocks_engine.cpp:391: the `RocksJournalFlusher` background job is
constructed and started iff `_durable` holds. -/
def journalFlusherStarted (durable : Bool) : Bool := durable

/-! ## Admission-control ticket resize (`RocksTicketServerParameter::_set`) -/

/-- The status returned by the resize path. -/
inductive TicketStatus where
  | ok
  /-- the rejection `Status(ErrorCodes::BadValue, name() + " has to be > 0")` — the
  invalid-argument rejection -/
  | badValue
  deriving Repr, DecidableEq

/-- The host's `TicketHolder::resize` (external to this repository):
sets the holder's total ticket count. -/
def ticketHolderResize (holder : Nat) (newNum : Int) : Nat := newNum.toNat

/-- Code of `RocksTicketServerParameter::_set` (rocks_engine.cpp:229): reject a
non-positive count with BadValue, leaving the holder untouched;
otherwise forward to the holder's resize. The `Nat` component is the
holder's total ticket count after the call. -/
def ticketSet (holder : Nat) (newNum : Int) : TicketStatus × Nat :=
  if newNum ≤ 0 then (.badValue, holder) else (.ok, ticketHolderResize holder newNum)

/-! ## Helper lemmas -/

theorem filterSpecAnswer_of_none (dropped : List Nat) (k : ByteKey)
    (h : extractPrefix k = none) : filterSpecAnswer dropped k = false := by
  unfold filterSpecAnswer
  rw [h]

theorem filterSpecAnswer_of_some (dropped : List Nat) (k : ByteKey) (p : Nat)
    (h : extractPrefix k = some p) : filterSpecAnswer dropped k = dropped.contains p := by
  unfold filterSpecAnswer
  rw [h]

theorem filterStep_of_none (dropped : List Nat) (st : FilterState) (k : ByteKey)
    (h : extractPrefix k = none) : filterStep dropped st k = (false, st) := by
  unfold filterStep
  rw [h]

theorem filterStep_hit (dropped : List Nat) (st : FilterState) (k : ByteKey)
    (h : extractPrefix k = some st.prefixCache) :
    filterStep dropped st k = (st.droppedCache, st) := by
  unfold filterStep
  rw [h]
  exact if_pos rfl

theorem filterStep_miss (dropped : List Nat) (st : FilterState) (k : ByteKey) (p : Nat)
    (h : extractPrefix k = some p) (hp : p ≠ st.prefixCache) :
    filterStep dropped st k = (dropped.contains p, ⟨p, dropped.contains p⟩) := by
  unfold filterStep
  rw [h]
  exact if_neg hp

theorem runFilter_cons (dropped : List Nat) (st : FilterState) (k : ByteKey)
    (ks : List ByteKey) :
    runFilter dropped st (k :: ks) =
      (filterStep dropped st k).1 :: runFilter dropped (filterStep dropped st k).2 ks := rfl

/-- The last-prefix cache is coherent (`_droppedCache` answers membership
of `_prefixCache`) as long as it starts coherent: then the filter answers
exactly the spec's per-key decision on every key of the run. -/
theorem runFilter_eq_map_spec (dropped : List Nat) (st : FilterState)
    (keys : List ByteKey) (hst : st.droppedCache = dropped.contains st.prefixCache) :
    runFilter dropped st keys = keys.map (filterSpecAnswer dropped) := by
  induction keys generalizing st with
  | nil => rfl
  | cons k ks ih =>
    rw [runFilter_cons, List.map_cons]
    cases hx : extractPrefix k with
    | none =>
      rw [filterStep_of_none dropped st k hx, filterSpecAnswer_of_none dropped k hx]
      exact congrArg (List.cons false) (ih st hst)
    | some p =>
      by_cases hp : p = st.prefixCache
      · subst hp
        rw [filterStep_hit dropped st k hx, filterSpecAnswer_of_some dropped k _ hx, hst]
        exact congrArg _ (ih st hst)
      · rw [filterStep_miss dropped st k p hx hp, filterSpecAnswer_of_some dropped k p hx]
        exact congrArg _ (ih ⟨p, dropped.contains p⟩ rfl)

theorem mem_assocInsert_self (m : List (Ident × BsonCfg)) (k : Ident) (v : BsonCfg) :
    (k, v) ∈ assocInsert m k v := by
  induction m with
  | nil => exact List.mem_singleton.mpr rfl
  | cons hd tl ih =>
    obtain ⟨k1, v1⟩ := hd
    unfold assocInsert
    by_cases h : k1 = k
    · rw [if_pos h]
      exact List.mem_cons_self _ _
    · rw [if_neg h]
      exact List.mem_cons_of_mem _ ih

theorem mem_assocInsert_of_ne (m : List (Ident × BsonCfg)) (k k1 : Ident)
    (v v1 : BsonCfg) (hne : k ≠ k1) (hm : (k, v) ∈ m) :
    (k, v) ∈ assocInsert m k1 v1 := by
  induction m with
  | nil => cases hm
  | cons hd tl ih =>
    obtain ⟨k2, v2⟩ := hd
    unfold assocInsert
    by_cases h : k2 = k1
    · rw [if_pos h]
      rcases List.mem_cons.mp hm with h2 | h2
      · exact absurd ((congrArg Prod.fst h2).trans h) hne
      · exact List.mem_cons_of_mem _ h2
    · rw [if_neg h]
      rcases List.mem_cons.mp hm with h2 | h2
      · exact h2 ▸ List.mem_cons_self _ _
      · exact List.mem_cons_of_mem _ (ih h2)

end RocksVerify

namespace RocksVerify

/-! ## Claim theorems -/

/-- Claim C2 (counterexample): the claim as stated fails for a snapshot
containing prefix 0. The cache of a fresh filter instance is initialised
to prefix 0 / not-dropped, so the first key with prefix 0 takes the cache
hit and is kept even though 0 is a member of the snapshot — the spec's
per-key decision would drop it. -/
theorem c2_counterexample :
    runFilter [0] filterInit [[0, 0, 0, 0]] ≠ [[0, 0, 0, 0]].map (filterSpecAnswer [0]) := by
  decide

/-- Claim C2 (amended): for a filter instance created from a snapshot not
containing prefix 0 (the engine never drops prefix 0, which is reserved
for metadata), every key shorter than 4 bytes is kept and every key of at
least 4 bytes is dropped iff its big-endian leading 32-bit prefix is in
the snapshot — i.e. the cached run agrees with the spec's per-key
decision on every key of every sequence. -/
theorem c2_filter_drop_decision (dropped : List Nat) (keys : List ByteKey)
    (h0 : dropped.contains 0 = false) :
    runFilter dropped filterInit keys = keys.map (filterSpecAnswer dropped) :=
  runFilter_eq_map_spec dropped filterInit keys (by simpa [filterInit] using h0.symm)

/-- Claim C2 (witness): the spec's scenario — keys with prefixes
[3,3,3,7,7] and snapshot {3} — drops exactly the three prefix-3 keys and
keeps both prefix-7 keys. -/
theorem c2_filter_drop_decision_witness :
    (([3] : List Nat).contains 0 = false) ∧
    runFilter [3] filterInit
        [[0, 0, 0, 3, 1], [0, 0, 0, 3, 2], [0, 0, 0, 3], [0, 0, 0, 7, 1], [0, 0, 0, 7]] =
      [[0, 0, 0, 3, 1], [0, 0, 0, 3, 2], [0, 0, 0, 3], [0, 0, 0, 7, 1],
        [0, 0, 0, 7]].map (filterSpecAnswer [3]) ∧
    runFilter [3] filterInit
        [[0, 0, 0, 3, 1], [0, 0, 0, 3, 2], [0, 0, 0, 3], [0, 0, 0, 7, 1], [0, 0, 0, 7]] =
      [true, true, true, false, false] :=
  ⟨by decide,
   c2_filter_drop_decision [3]
     [[0, 0, 0, 3, 1], [0, 0, 0, 3, 2], [0, 0, 0, 3], [0, 0, 0, 7, 1], [0, 0, 0, 7]]
     (by decide),
   by decide⟩

/-- Claim C10: when the engine's dropped-prefix set is empty at the
moment a compaction requests a filter, the factory installs no filter
(null), and installing no filter keeps every key — exactly what a filter
instance over the empty snapshot would do; a filter object is constructed
iff the snapshot taken from the engine is non-empty. -/
theorem c10_factory_null_iff_empty (e : EngineState) (keys : List ByteKey) :
    (createCompactionFilter (getDroppedPrefixes e) = none ↔ getDroppedPrefixes e = []) ∧
    runMaybeFilter none keys = keys.map (fun _ => false) ∧
    runMaybeFilter none keys = runFilter [] filterInit keys := by
  refine ⟨?_, rfl, ?_⟩
  · unfold createCompactionFilter
    constructor
    · intro h
      by_cases hl : (getDroppedPrefixes e).length = 0
      · exact List.length_eq_zero.mp hl
      · simp [hl] at h
    · intro h
      simp [h]
  · have h := runFilter_eq_map_spec [] filterInit keys (by rfl)
    have h2 : keys.map (filterSpecAnswer []) = keys.map (fun _ => false) := by
      apply List.map_congr_left
      intro k _
      unfold filterSpecAnswer
      cases extractPrefix k <;> rfl
    simp [runMaybeFilter, h, h2]

/-- Claim C9: resizing an admission-control ticket count with a
non-positive value fails with the invalid-argument rejection (BadValue)
and leaves the holder's total unchanged; a positive value is forwarded to
the holder's resize. -/
theorem c9_ticket_resize (holder : Nat) (newNum : Int) :
    (newNum ≤ 0 → ticketSet holder newNum = (.badValue, holder)) ∧
    (0 < newNum → ticketSet holder newNum = (.ok, ticketHolderResize holder newNum)) := by
  constructor
  · intro h
    simp [ticketSet, h]
  · intro h
    simp [ticketSet, not_le.mpr h]

/-- Claim C9 (witness): resizing to -3 is rejected with the holder's 128
tickets unchanged; resizing to 64 is forwarded. -/
theorem c9_ticket_resize_witness :
    ticketSet 128 (-3) = (.badValue, 128) ∧
    ticketSet 128 64 = (.ok, ticketHolderResize 128 64) :=
  ⟨(c9_ticket_resize 128 (-3)).1 (by decide), (c9_ticket_resize 128 64).2 (by decide)⟩

/-- Claim C4: creating an ident that is already registered — through
`_createIdent` (record stores, sorted-data interfaces) or through
`createOplogStore` — returns success, allocates no prefix, performs no
persistent write, and leaves the whole engine state (ident map entry,
max-prefix counter, oplog ident) unchanged. -/
theorem c4_create_idempotent (e : EngineState) (ident : Ident) (extra : List Nat)
    (b1 b2 b3 : Bool) (cfg : BsonCfg) (h : findCfg e.identMap ident = some cfg) :
    createIdentM e ident extra b1 b2 = ⟨true, e, [], none⟩ ∧
    createOplogStoreM e ident b1 b2 b3 = ⟨true, e, [], none⟩ := by
  constructor
  · unfold createIdentM
    rw [h]
  · unfold createOplogStoreM
    rw [h]

/-- Claim C4 (witness): with ident `[97]` registered under prefix 2, both
create paths are no-ops returning success. -/
theorem c4_create_idempotent_witness :
    createIdentM ⟨[([97], ⟨some 2, []⟩)], [], [], 5⟩ [97] [7] true true =
      ⟨true, ⟨[([97], ⟨some 2, []⟩)], [], [], 5⟩, [], none⟩ ∧
    createOplogStoreM ⟨[([97], ⟨some 2, []⟩)], [], [], 5⟩ [97] true true true =
      ⟨true, ⟨[([97], ⟨some 2, []⟩)], [], [], 5⟩, [], none⟩ :=
  c4_create_idempotent ⟨[([97], ⟨some 2, []⟩)], [], [], 5⟩ [97] [7] true true true
    ⟨some 2, []⟩ (by decide)

/-- Claim C5 (counterexample): looking up an unknown ident does not fail
with a NotFound error — `_getIdentConfig` fires
`invariant(identIter != _identMap.end())`, a fatal process abort. -/
theorem c5_counterexample :
    getIdentConfigM ⟨[], [], [], 1⟩ [120] = .invariantFailure ∧
    LookupResult.invariantFailure ≠ LookupResult.notFound := by
  decide

/-- Claim C5 (amended): looking up an ident's configuration aborts with a
fatal invariant failure (not a NotFound error) when the ident is unknown;
when the ident is known it returns the stored config record by value
(`.copy()`), the registry itself being left untouched, so the caller
never observes mutation of the registry's internal record. -/
theorem c5_lookup_config (e : EngineState) (ident : Ident) :
    (findCfg e.identMap ident = none → getIdentConfigM e ident = .invariantFailure) ∧
    (∀ cfg, findCfg e.identMap ident = some cfg → getIdentConfigM e ident = .found cfg) := by
  constructor
  · intro h
    unfold getIdentConfigM
    rw [h]
  · intro cfg h
    unfold getIdentConfigM
    rw [h]

/-- Claim C5 (witness): both branches at concrete registries. -/
theorem c5_lookup_config_witness :
    getIdentConfigM ⟨[], [], [], 1⟩ [97] = .invariantFailure ∧
    getIdentConfigM ⟨[([97], ⟨some 2, [9]⟩)], [], [], 5⟩ [97] = .found ⟨some 2, [9]⟩ :=
  ⟨(c5_lookup_config ⟨[], [], [], 1⟩ [97]).1 (by decide),
   (c5_lookup_config ⟨[([97], ⟨some 2, [9]⟩)], [], [], 5⟩ [97]).2 ⟨some 2, [9]⟩ (by decide)⟩

/-- Claim C1: for every registered ident, `dropIdent` writes the
drop-markers for all retired prefixes (the ident's own prefix, plus the
next prefix when the ident is the oplog ident) together with the
metadata-key deletion in one atomic batch with `sync = true`; only when
that durable write succeeds does it erase the ident from the in-memory
map, insert the prefixes into the dropped-prefix set, and schedule purge
compactions for them; if the durable write fails, the error is returned
with the ident map and dropped-prefix set unchanged. -/
theorem c1_dropIdent_durable_marker (e : EngineState) (ident : Ident) (cfg : BsonCfg)
    (writeOk : Bool) (h : findCfg e.identMap ident = some cfg) :
    (dropBatchOf e ident cfg).deletes = [.metadataKey ident] ∧
    (dropBatchOf e ident cfg).puts = (dropPrefixesOf e ident cfg).map .droppedMarker ∧
    (dropBatchOf e ident cfg).sync = true ∧
    (e.oplogIdent = ident →
      dropPrefixesOf e ident cfg =
        [uint32OfInt (cfg.prefixField.getD 0),
         rocksGetNextPrefixM (uint32OfInt (cfg.prefixField.getD 0))]) ∧
    (e.oplogIdent ≠ ident →
      dropPrefixesOf e ident cfg = [uint32OfInt (cfg.prefixField.getD 0)]) ∧
    (writeOk = false →
      dropIdentM e ident writeOk = .writeFailed e (dropBatchOf e ident cfg)) ∧
    (writeOk = true →
      dropIdentM e ident writeOk =
        .ok ⟨assocErase e.identMap ident,
             e.droppedPrefixes ++ dropPrefixesOf e ident cfg,
             e.oplogIdent, e.maxPrefix⟩
          (dropBatchOf e ident cfg) (dropPrefixesOf e ident cfg)) := by
  refine ⟨rfl, rfl, rfl, ?_, ?_, ?_, ?_⟩
  · intro ho
    unfold dropPrefixesOf
    exact if_pos ho
  · intro ho
    unfold dropPrefixesOf
    exact if_neg ho
  · intro hw
    subst hw
    unfold dropIdentM
    rw [h]
    rfl
  · intro hw
    subst hw
    unfold dropIdentM
    rw [h]
    rfl

/-- Claim C1 (witness): dropping the registered oplog ident `[97]` with a
successful durable write retires prefixes 2 and 3 and commits the
in-memory changes; dropping registered ident `[98]` with a failing
durable write returns the error with the state untouched. -/
theorem c1_dropIdent_durable_marker_witness :
    dropIdentM ⟨[([97], ⟨some 2, []⟩)], [], [97], 3⟩ [97] true =
      .ok ⟨[], [2, 3], [97], 3⟩
        ⟨[.metadataKey [97]], [.droppedMarker 2, .droppedMarker 3], true⟩ [2, 3] ∧
    dropIdentM ⟨[([98], ⟨some 4, []⟩)], [9], [], 5⟩ [98] false =
      .writeFailed ⟨[([98], ⟨some 4, []⟩)], [9], [], 5⟩
        ⟨[.metadataKey [98]], [.droppedMarker 4], true⟩ :=
  ⟨((c1_dropIdent_durable_marker ⟨[([97], ⟨some 2, []⟩)], [], [97], 3⟩ [97] ⟨some 2, []⟩
      true (by decide)).2.2.2.2.2.2 rfl).trans (by decide),
   ((c1_dropIdent_durable_marker ⟨[([98], ⟨some 4, []⟩)], [9], [], 5⟩ [98] ⟨some 4, []⟩
      false (by decide)).2.2.2.2.2.1 rfl).trans (by decide)⟩

/-- Claim C8 (counterexample): an iteration of the pacer loop does not wait
first and then force durability — the body forces the write-ahead log
durable first and sleeps afterwards. -/
theorem c8_counterexample :
    flusherBody ⟨false, none, 0⟩ = .events [.forceDurable, .sleep 100] ∧
    flusherBody ⟨false, none, 0⟩ ≠ .events [.sleep 100, .forceDurable] := by
  decide

/-- Claim C8 (amended): the pacer thread is started iff durability is
enabled; each iteration of its loop forces the write-ahead log durable
and then waits for the configured commit interval, using 100 time-units
when the configured value is unset (0); a durability request failing with
ShutdownInProgress is swallowed and the iteration proceeds, any other
failure is a fatal invariant violation; the loop runs no further body
once a loop-head read observes the shutdown signal (which shutdown sets
before joining the thread). -/
theorem c8_flusher_pacing (durable : Bool) (it : FlusherIter) (iters : List FlusherIter) :
    (journalFlusherStarted durable = true ↔ durable = true) ∧
    (it.configMs = 0 → effectiveIntervalMs it.configMs = 100) ∧
    (it.waitError = none ∨ it.waitError = some .shutdownInProgress →
      flusherBody it = .events [.forceDurable, .sleep (effectiveIntervalMs it.configMs)]) ∧
    (it.waitError = some .other → flusherBody it = .invariantFailure) ∧
    (it.shuttingDown = true → flusherRun (it :: iters) = .events []) := by
  refine ⟨Iff.rfl, ?_, ?_, ?_, ?_⟩
  · intro h
    unfold effectiveIntervalMs
    rw [if_pos h]
  · intro h
    rcases h with h | h
    · unfold flusherBody
      rw [h]
    · unfold flusherBody
      rw [h]
      rfl
  · intro h
    unfold flusherBody
    rw [h]
    rfl
  · intro h
    unfold flusherRun
    rw [h]
    rfl

/-- Claim C8 (witness): the default interval, the swallowed
ShutdownInProgress, the fatal other failure, and the immediate exit on an
observed shutdown signal, at concrete iteration environments. -/
theorem c8_flusher_pacing_witness :
    effectiveIntervalMs 0 = 100 ∧
    flusherBody ⟨false, some .shutdownInProgress, 0⟩ = .events [.forceDurable, .sleep 100] ∧
    flusherBody ⟨false, some .other, 5⟩ = .invariantFailure ∧
    flusherRun [⟨true, none, 0⟩, ⟨false, none, 0⟩] = .events [] :=
  ⟨(c8_flusher_pacing true ⟨false, none, 0⟩ []).2.1 rfl,
   ((c8_flusher_pacing true ⟨false, some .shutdownInProgress, 0⟩ []).2.2.1
      (Or.inr rfl)).trans (by decide),
   (c8_flusher_pacing true ⟨false, some .other, 5⟩ []).2.2.2.1 rfl,
   (c8_flusher_pacing true ⟨true, none, 0⟩ [⟨false, none, 0⟩]).2.2.2.2 rfl⟩

/-- One unfolding of the fuelled `openDB`. -/
theorem openDB_succ (fuel : Nat) (st : DBState) (useSep ro : Bool) :
    openDB (fuel + 1) st useSep ro =
      if openAttemptOk st useSep ro then
        (.ok, { st with dbExists := true, hasReopenTag := st.hasReopenTag || !ro })
      else
        if useSep then
          if st.dbExists || !ro then
            if st.hasReopenTag then (.fatalShouldBeFalse, { st with dbExists := true })
            else
              openDB fuel { st with dbExists := true, hasOplogCF := true } useSep ro
          else (.fatalPlainOpenFailed, st)
        else (.fatalShouldBeTrue, st) := rfl

/-- A successful first attempt consumes no fuel beyond one level. -/
theorem openDB_of_attempt_ok (n : Nat) (st : DBState) (useSep ro : Bool)
    (h : openAttemptOk st useSep ro = true) :
    openDB (n + 1) st useSep ro =
      (.ok, { st with dbExists := true, hasReopenTag := st.hasReopenTag || !ro }) := by
  rw [openDB_succ, if_pos h]

/-- The open's self-recursion is bounded: two levels of fuel decide every
input, because the recursive call happens only after the missing oplog
column family has been created, and the reopen against a store possessing
both families succeeds at once. -/
theorem openDB_fuel_stable (n : Nat) (st : DBState) (useSep ro : Bool) :
    openDB (n + 2) st useSep ro = openDB 2 st useSep ro := by
  cases hA : openAttemptOk st useSep ro with
  | true =>
    rw [openDB_of_attempt_ok (n + 1) st useSep ro hA, openDB_of_attempt_ok 1 st useSep ro hA]
  | false =>
    have e1 : n + 2 = (n + 1) + 1 := rfl
    have e2 : 2 = 1 + 1 := rfl
    rw [e1, e2, openDB_succ (n + 1) st useSep ro, openDB_succ 1 st useSep ro, hA]
    simp only [Bool.false_eq_true, if_false]
    cases useSep with
    | false => rfl
    | true =>
      simp only [if_true]
      cases hP : (st.dbExists || !ro) with
      | false => simp only [Bool.false_eq_true, if_false]
      | true =>
        simp only [if_true]
        cases hT : st.hasReopenTag with
        | true => simp only [if_true]
        | false =>
          simp only [Bool.false_eq_true, if_false]
          have hok : openAttemptOk ⟨true, true, false⟩ true ro = true := rfl
          rw [openDB_of_attempt_ok n ⟨true, true, false⟩ true ro hok]
          exact (openDB_of_attempt_ok 0 ⟨true, true, false⟩ true ro hok).symm

/-- Claim C7 (counterexample): requesting the extra column group against a
previously-default-only store (reopen tag present, no oplog family) does
not perform a create-and-reopen retry — it is a fatal inconsistent
configuration (case 2, `UseSeparateOplogCF should be false`). -/
theorem c7_counterexample :
    (openDB 2 ⟨true, false, true⟩ true false).1 = .fatalShouldBeFalse ∧
    OpenResult.fatalShouldBeFalse ≠ .ok := by
  decide

/-- Claim C7 (amended): store-open recovery is a bounded case analysis:
a store that previously had the extra column group opened with only the
default group requested aborts as a fatal inconsistent configuration;
a fresh store (never successfully opened, so no reopen tag) with the
extra group requested performs a bounded one-level retry — create the
missing group, reopen once — and succeeds, two fuel levels deciding every
input (never unbounded recursion); but a previously-default-only store
(reopen tag present) with the extra group newly requested also aborts as
a fatal inconsistent configuration rather than retrying. -/
theorem c7_openDB_case_analysis (st : DBState) (ro : Bool) (n : Nat) :
    (st.dbExists = true → st.hasOplogCF = true →
      (openDB 2 st false ro).1 = .fatalShouldBeTrue) ∧
    (st.dbExists = false → st.hasOplogCF = false → st.hasReopenTag = false →
      openDB 2 st true false = (.ok, ⟨true, true, true⟩) ∧
      (openDB 1 st true false).1 = .outOfFuel) ∧
    (openDB (n + 2) st true ro = openDB 2 st true ro) ∧
    (st.dbExists = true → st.hasOplogCF = false → st.hasReopenTag = true →
      (openDB 2 st true ro).1 = .fatalShouldBeFalse) := by
  obtain ⟨de, cf, tag⟩ := st
  refine ⟨?_, ?_, openDB_fuel_stable n ⟨de, cf, tag⟩ true ro, ?_⟩
  · intro h1 h2
    subst h1
    subst h2
    cases tag <;> cases ro <;> decide
  · intro h1 h2 h3
    subst h1
    subst h2
    subst h3
    exact ⟨by decide, by decide⟩
  · intro h1 h2 h3
    subst h1
    subst h2
    subst h3
    cases ro <;> decide

/-- Claim C7 (witness): the fatal default-only-requested case, the fresh
store one-level retry, fuel stability, and the fatal
previously-default-only case, at concrete stores. -/
theorem c7_openDB_case_analysis_witness :
    (openDB 2 ⟨true, true, true⟩ false false).1 = .fatalShouldBeTrue ∧
    (openDB 2 ⟨false, false, false⟩ true false = (.ok, ⟨true, true, true⟩) ∧
      (openDB 1 ⟨false, false, false⟩ true false).1 = .outOfFuel) ∧
    openDB 7 ⟨false, false, false⟩ true false = openDB 2 ⟨false, false, false⟩ true false ∧
    (openDB 2 ⟨true, false, true⟩ true true).1 = .fatalShouldBeFalse :=
  ⟨(c7_openDB_case_analysis ⟨true, true, true⟩ false 0).1 rfl rfl,
   (c7_openDB_case_analysis ⟨false, false, false⟩ false 0).2.1 rfl rfl rfl,
   (c7_openDB_case_analysis ⟨false, false, false⟩ false 5).2.2.1,
   (c7_openDB_case_analysis ⟨true, false, true⟩ true 0).2.2.2 rfl rfl rfl⟩

/-- One unfolding of the metadata scan. -/
theorem scanMeta_cons (acc : List (Ident × BsonCfg)) (mp : Nat) (entry : StoreEntry)
    (rest : List StoreEntry) :
    scanMeta acc mp (entry :: rest) =
      match entry.2.prefixField with
      | none => .error .corruptMetadata
      | some i =>
        scanMeta (assocInsert acc (entry.1.drop 12) entry.2) (max mp (uint32OfInt i)) rest :=
  rfl

/-- The metadata scan never lowers the running maximum. -/
theorem scanMeta_base_le (entries : List StoreEntry) :
    ∀ acc mp m mmax, scanMeta acc mp entries = .ok (m, mmax) → mp ≤ mmax := by
  induction entries with
  | nil =>
    intro acc mp m mmax h
    injection h with h1
    rw [Prod.mk.injEq] at h1
    exact le_of_eq h1.2
  | cons entry rest ih =>
    intro acc mp m mmax h
    cases hpf : entry.2.prefixField with
    | none =>
      rw [scanMeta_cons] at h
      simp only [hpf] at h
      exact Except.noConfusion h
    | some i =>
      rw [scanMeta_cons] at h
      simp only [hpf] at h
      exact le_trans (Nat.le_max_left mp (uint32OfInt i)) (ih _ _ _ _ h)

/-- Accumulator entries whose ident is never reassigned survive the
metadata scan. -/
theorem scanMeta_mem_preserved (entries : List StoreEntry) :
    ∀ acc mp m mmax (k : Ident) (v : BsonCfg), (k, v) ∈ acc →
      (∀ e ∈ entries, ¬ e.1.drop 12 = k) →
      scanMeta acc mp entries = .ok (m, mmax) → (k, v) ∈ m := by
  induction entries with
  | nil =>
    intro acc mp m mmax k v hacc _ h
    injection h with h1
    rw [Prod.mk.injEq] at h1
    exact h1.1 ▸ hacc
  | cons entry rest ih =>
    intro acc mp m mmax k v hacc hne h
    cases hpf : entry.2.prefixField with
    | none =>
      rw [scanMeta_cons] at h
      simp only [hpf] at h
      exact Except.noConfusion h
    | some i =>
      rw [scanMeta_cons] at h
      simp only [hpf] at h
      refine ih _ _ _ _ k v ?_ (fun e he => hne e (List.mem_cons_of_mem entry he)) h
      exact mem_assocInsert_of_ne acc k (entry.1.drop 12) v entry.2
        (fun hk => hne entry (List.mem_cons_self entry rest) (hk ▸ rfl)) hacc

/-- Every entry passed to the metadata scan (with distinct idents) ends up
registered under its ident, its `prefix` field decoded and bounded by the
final maximum. -/
theorem scanMeta_entries_spec (entries : List StoreEntry) :
    ∀ acc mp m mmax,
      (entries.map (fun e => e.1.drop 12)).Nodup →
      scanMeta acc mp entries = .ok (m, mmax) →
      ∀ entry ∈ entries, (entry.1.drop 12, entry.2) ∈ m ∧
        ∃ i, entry.2.prefixField = some i ∧ uint32OfInt i ≤ mmax := by
  induction entries with
  | nil =>
    intro acc mp m mmax _ _ entry he
    cases he
  | cons entry rest ih =>
    intro acc mp m mmax hnd h e he
    rw [List.map_cons, List.nodup_cons] at hnd
    cases hpf : entry.2.prefixField with
    | none =>
      rw [scanMeta_cons] at h
      simp only [hpf] at h
      exact Except.noConfusion h
    | some i =>
      rw [scanMeta_cons] at h
      simp only [hpf] at h
      rcases List.mem_cons.mp he with he1 | he1
      · subst he1
        constructor
        · refine scanMeta_mem_preserved rest _ _ _ _ _ _
            (mem_assocInsert_self acc (e.1.drop 12) e.2) ?_ h
          intro e2 he2 hk
          exact hnd.1 (hk ▸ List.mem_map_of_mem (fun x => x.1.drop 12) he2)
        · exact ⟨i, hpf, le_trans (Nat.le_max_right mp (uint32OfInt i))
            (scanMeta_base_le rest _ _ _ _ h)⟩
      · exact ih _ _ _ _ hnd.2 h e he1

/-- One unfolding of the drop-marker scan. -/
theorem scanDropped_cons (entry : StoreEntry) (rest : List StoreEntry) :
    scanDropped (entry :: rest) =
      match extractPrefix (entry.1.drop 18) with
      | none => .error .shortDroppedKey
      | some p =>
        match scanDropped rest with
        | .error f => .error f
        | .ok (ds, sched) => .ok (p :: ds, entry.1.drop 18 :: sched) := rfl

/-- Every drop-marker entry passed to the scan is decoded, inserted into
the dropped set, and has its purge re-enqueued. -/
theorem scanDropped_entries_spec (entries : List StoreEntry) :
    ∀ ds sched, scanDropped entries = .ok (ds, sched) →
      ∀ entry ∈ entries, ∃ p, extractPrefix (entry.1.drop 18) = some p ∧
        p ∈ ds ∧ entry.1.drop 18 ∈ sched := by
  induction entries with
  | nil =>
    intro ds sched _ entry he
    cases he
  | cons entry rest ih =>
    intro ds sched h e he
    cases hx : extractPrefix (entry.1.drop 18) with
    | none =>
      rw [scanDropped_cons] at h
      simp only [hx] at h
      exact Except.noConfusion h
    | some p =>
      rw [scanDropped_cons] at h
      simp only [hx] at h
      cases hrec : scanDropped rest with
      | error f =>
        rw [hrec] at h
        simp at h
      | ok pair =>
        obtain ⟨ds0, sch0⟩ := pair
        rw [hrec] at h
        simp only [] at h
        injection h with h1
        rw [Prod.mk.injEq] at h1
        obtain ⟨hds, hsch⟩ := h1
        rcases List.mem_cons.mp he with he1 | he1
        · subst he1
          exact ⟨p, hx, hds ▸ List.mem_cons_self p ds0,
            hsch ▸ List.mem_cons_self (e.1.drop 18) sch0⟩
        · obtain ⟨q, hq1, hq2, hq3⟩ := ih ds0 sch0 hrec e he1
          exact ⟨q, hq1, hds ▸ List.mem_cons_of_mem p hq2,
            hsch ▸ List.mem_cons_of_mem (entry.1.drop 18) hq3⟩

/-- Claim C3 (counterexample): recovering an empty store does not leave
the max-prefix counter at its default value 0 — the constructor advances
the counter by the extra slot unconditionally, so an empty store yields
counter 1. -/
theorem c3_counterexample :
    recover [] = .ok ⟨[], 1, [], []⟩ ∧ (1 : Nat) ≠ 0 :=
  ⟨rfl, by decide⟩

/-- Claim C3 (amended): startup recovery, reading only the store's
contents, rebuilds the engine state: an empty store yields the counter
advanced one slot past its default (to 1), since the extra-slot advance
is unconditional; every entry in the metadata namespace is registered in
the ident map with its whole config under its ident, the counter being
raised to at least its decoded prefix and then advanced by one extra
`uint32_t` slot (wrapping at 2^32, so the decoded prefixes sit strictly
below the final counter whenever that advance does not wrap); and every
drop-marker is inserted into the dropped-prefix set with its purge
re-enqueued; in particular a store holding only the metadata record for
ident "coll1" with prefix 5 yields exactly the registry entry (coll1, 5)
and counter 6. -/
theorem c3_recovery_rebuild (store : List StoreEntry) (r : RecoveredState)
    (m : List (Ident × BsonCfg)) (mp : Nat)
    (hnd : ((store.filter (fun e => kMetadataPrefix.isPrefixOf e.1)).map
        (fun e => e.1.drop 12)).Nodup)
    (h : recover store = .ok r)
    (hsm : recoverScanMax store = .ok (m, mp)) :
    (store = [] → r = ⟨[], 1, [], []⟩) ∧
    r.identMap = m ∧
    r.maxPrefix = uinc mp ∧
    (∀ entry ∈ store, kMetadataPrefix.isPrefixOf entry.1 = true →
      (entry.1.drop 12, entry.2) ∈ r.identMap ∧
      ∃ i, entry.2.prefixField = some i ∧ uint32OfInt i ≤ mp ∧
        (mp + 1 < 4294967296 → uint32OfInt i < r.maxPrefix)) ∧
    (∀ entry ∈ store, kDroppedPrefix.isPrefixOf entry.1 = true →
      ∃ p, extractPrefix (entry.1.drop 18) = some p ∧ p ∈ r.droppedPrefixes ∧
        entry.1.drop 18 ∈ r.compactionsScheduled) ∧
    recover [(kMetadataPrefix ++ [99, 111, 108, 108, 49], ⟨some 5, []⟩)] =
      .ok ⟨[([99, 111, 108, 108, 49], ⟨some 5, []⟩)], 6, [], []⟩ := by
  unfold recover at h
  simp only [hsm] at h
  cases hsd : scanDropped (store.filter (fun e => kDroppedPrefix.isPrefixOf e.1)) with
  | error f =>
    simp only [hsd] at h
    exact Except.noConfusion h
  | ok pair2 =>
    obtain ⟨ds, sch⟩ := pair2
    simp only [hsd] at h
    injection h with h1
    subst h1
    have hscan : ∃ b, scanMeta [] b
        (store.filter (fun e => kMetadataPrefix.isPrefixOf e.1)) = .ok (m, mp) := by
      unfold recoverScanMax at hsm
      cases hl : store.getLast? with
      | none =>
        simp only [hl] at hsm
        exact ⟨0, hsm⟩
      | some last =>
        simp only [hl] at hsm
        cases hx : extractPrefix last.1 with
        | none =>
          simp only [hx] at hsm
          exact Except.noConfusion hsm
        | some p =>
          simp only [hx] at hsm
          exact ⟨p, hsm⟩
    obtain ⟨base, hscanb⟩ := hscan
    refine ⟨?_, rfl, rfl, ?_, ?_, rfl⟩
    · intro hemp
      subst hemp
      have h0 : recoverScanMax ([] : List StoreEntry) = .ok ([], 0) := rfl
      rw [h0] at hsm
      injection hsm with h2
      rw [Prod.mk.injEq] at h2
      have h4 : scanDropped (([] : List StoreEntry).filter
          (fun e => kDroppedPrefix.isPrefixOf e.1)) = .ok ([], []) := rfl
      rw [h4] at hsd
      injection hsd with h3
      rw [Prod.mk.injEq] at h3
      have h5 : uinc 0 = 1 := rfl
      rw [← h2.1, ← h2.2, ← h3.1, ← h3.2, h5]
    · intro entry he hpre
      have hmem : entry ∈ store.filter (fun e => kMetadataPrefix.isPrefixOf e.1) :=
        List.mem_filter.mpr ⟨he, hpre⟩
      obtain ⟨h1, i, h2, h3⟩ :=
        scanMeta_entries_spec _ [] base m mp hnd hscanb entry hmem
      refine ⟨h1, i, h2, h3, ?_⟩
      intro hlt
      show uint32OfInt i < uinc mp
      unfold uinc
      rw [Nat.mod_eq_of_lt hlt]
      omega
    · intro entry he hpre
      exact scanDropped_entries_spec _ ds sch hsd entry
        (List.mem_filter.mpr ⟨he, hpre⟩)

/-- Claim C3 (witness): the spec's round-trip — recovering a store that
holds only the metadata record for ident "coll1" (bytes [99,111,108,108,49])
with prefix 5 registers exactly that entry, the counter reaching 5 in the
scan and ending at the non-wrapping advance 6, so the decoded prefix 5
stays strictly below it. -/
theorem c3_recovery_rebuild_witness :
    ((⟨[([99, 111, 108, 108, 49], ⟨some 5, []⟩)], 6, [], []⟩ :
        RecoveredState).maxPrefix = uinc 5) ∧
    ((kMetadataPrefix ++ [99, 111, 108, 108, 49]).drop 12, (⟨some 5, []⟩ : BsonCfg)) ∈
      (⟨[([99, 111, 108, 108, 49], ⟨some 5, []⟩)], 6, [], []⟩ :
        RecoveredState).identMap ∧
    ∃ i, (⟨some 5, []⟩ : BsonCfg).prefixField = some i ∧ uint32OfInt i ≤ 5 ∧
      (5 + 1 < 4294967296 → uint32OfInt i <
        (⟨[([99, 111, 108, 108, 49], ⟨some 5, []⟩)], 6, [], []⟩ :
          RecoveredState).maxPrefix) :=
  ⟨(c3_recovery_rebuild [(kMetadataPrefix ++ [99, 111, 108, 108, 49], ⟨some 5, []⟩)]
      ⟨[([99, 111, 108, 108, 49], ⟨some 5, []⟩)], 6, [], []⟩
      [([99, 111, 108, 108, 49], ⟨some 5, []⟩)] 5
      (by decide) (by rfl) (by rfl)).2.2.1,
   ((c3_recovery_rebuild [(kMetadataPrefix ++ [99, 111, 108, 108, 49], ⟨some 5, []⟩)]
      ⟨[([99, 111, 108, 108, 49], ⟨some 5, []⟩)], 6, [], []⟩
      [([99, 111, 108, 108, 49], ⟨some 5, []⟩)] 5
      (by decide) (by rfl) (by rfl)).2.2.2.1
     (kMetadataPrefix ++ [99, 111, 108, 108, 49], ⟨some 5, []⟩)
     (List.mem_singleton.mpr rfl) (by decide)).1,
   ((c3_recovery_rebuild [(kMetadataPrefix ++ [99, 111, 108, 108, 49], ⟨some 5, []⟩)]
      ⟨[([99, 111, 108, 108, 49], ⟨some 5, []⟩)], 6, [], []⟩
      [([99, 111, 108, 108, 49], ⟨some 5, []⟩)] 5
      (by decide) (by rfl) (by rfl)).2.2.2.1
     (kMetadataPrefix ++ [99, 111, 108, 108, 49], ⟨some 5, []⟩)
     (List.mem_singleton.mpr rfl) (by decide)).2⟩

/-- The `uint32_t` increment is the plain successor below the wrap. -/
theorem uinc_eq_of_lt (x : Nat) (h : x + 1 < 4294967296) : uinc x = x + 1 :=
  Nat.mod_eq_of_lt h

/-- An already-registered ident short-circuits `_createIdent`. -/
theorem createIdentM_of_found (e : EngineState) (ident : Ident) (extra : List Nat)
    (b1 b2 : Bool) (cfg : BsonCfg) (hf : findCfg e.identMap ident = some cfg) :
    createIdentM e ident extra b1 b2 = ⟨true, e, [], none⟩ := by
  unfold createIdentM
  rw [hf]

/-- A fresh ident makes `_createIdent` allocate the incremented counter. -/
theorem createIdentM_of_none (e : EngineState) (ident : Ident) (extra : List Nat)
    (b1 b2 : Bool) (hf : findCfg e.identMap ident = none) :
    (createIdentM e ident extra b1 b2).engine =
      { e with maxPrefix := uinc e.maxPrefix,
               identMap := assocInsert e.identMap ident
                 ⟨some (int32OfNat (uinc e.maxPrefix)), extra⟩ } ∧
    (createIdentM e ident extra b1 b2).allocated = some (uinc e.maxPrefix) := by
  unfold createIdentM
  rw [hf]
  cases b1 <;> exact ⟨rfl, rfl⟩

/-- An already-registered ident short-circuits `createOplogStore`. -/
theorem createOplogStoreM_of_found (e : EngineState) (ident : Ident)
    (b1 b2 b3 : Bool) (cfg : BsonCfg) (hf : findCfg e.identMap ident = some cfg) :
    createOplogStoreM e ident b1 b2 b3 = ⟨true, e, [], none⟩ := by
  unfold createOplogStoreM
  rw [hf]

/-- A fresh oplog ident allocates its prefix and the tracker prefix. -/
theorem createOplogStoreM_of_none (e : EngineState) (ident : Ident)
    (b1 b2 b3 : Bool) (hf : findCfg e.identMap ident = none) :
    (createOplogStoreM e ident b1 b2 b3).engine.maxPrefix = uinc (uinc e.maxPrefix) ∧
    (createOplogStoreM e ident b1 b2 b3).allocated = some (uinc e.maxPrefix) := by
  unfold createOplogStoreM
  rw [hf]
  exact ⟨rfl, rfl⟩

/-- Dispatch equations of the create operations. -/
theorem createRecordStoreM_false (e : EngineState) (ident : Ident) (b1 b2 b3 : Bool) :
    createRecordStoreM e false ident b1 b2 b3 = createIdentM e ident [] b1 b2 := rfl

theorem createRecordStoreM_true (e : EngineState) (ident : Ident) (b1 b2 b3 : Bool) :
    createRecordStoreM e true ident b1 b2 b3 = createOplogStoreM e ident b1 b2 b3 := rfl

/-- One create moves the counter up by at most two slots and never hands
out a prefix above it (below the 32-bit wrap). -/
theorem applyOp_bounds (e : EngineState) (op : EngineOp)
    (h : e.maxPrefix + 2 < 4294967296) :
    e.maxPrefix ≤ (applyOp e op).engine.maxPrefix ∧
    (applyOp e op).engine.maxPrefix ≤ e.maxPrefix + 2 ∧
    ∀ p, (applyOp e op).allocated = some p → p ≤ (applyOp e op).engine.maxPrefix := by
  have hu1 : uinc e.maxPrefix = e.maxPrefix + 1 := uinc_eq_of_lt _ (by omega)
  have hu2 : uinc (e.maxPrefix + 1) = e.maxPrefix + 2 := uinc_eq_of_lt _ (by omega)
  have hident : ∀ (ident : Ident) (extra : List Nat) (b1 b2 : Bool),
      e.maxPrefix ≤ (createIdentM e ident extra b1 b2).engine.maxPrefix ∧
      (createIdentM e ident extra b1 b2).engine.maxPrefix ≤ e.maxPrefix + 2 ∧
      ∀ p, (createIdentM e ident extra b1 b2).allocated = some p →
        p ≤ (createIdentM e ident extra b1 b2).engine.maxPrefix := by
    intro ident extra b1 b2
    cases hf : findCfg e.identMap ident with
    | some cfg =>
      rw [createIdentM_of_found e ident extra b1 b2 cfg hf]
      refine ⟨le_refl _, ?_, fun p hp => Option.noConfusion hp⟩
      show e.maxPrefix ≤ e.maxPrefix + 2
      omega
    | none =>
      obtain ⟨h1, h2⟩ := createIdentM_of_none e ident extra b1 b2 hf
      rw [h1, h2, hu1]
      refine ⟨?_, ?_, ?_⟩
      · show e.maxPrefix ≤ e.maxPrefix + 1
        omega
      · show e.maxPrefix + 1 ≤ e.maxPrefix + 2
        omega
      · intro p hp
        injection hp with hp1
        show p ≤ e.maxPrefix + 1
        omega
  have hoplog : ∀ (ident : Ident) (b1 b2 b3 : Bool),
      e.maxPrefix ≤ (createOplogStoreM e ident b1 b2 b3).engine.maxPrefix ∧
      (createOplogStoreM e ident b1 b2 b3).engine.maxPrefix ≤ e.maxPrefix + 2 ∧
      ∀ p, (createOplogStoreM e ident b1 b2 b3).allocated = some p →
        p ≤ (createOplogStoreM e ident b1 b2 b3).engine.maxPrefix := by
    intro ident b1 b2 b3
    cases hf : findCfg e.identMap ident with
    | some cfg =>
      rw [createOplogStoreM_of_found e ident b1 b2 b3 cfg hf]
      refine ⟨le_refl _, ?_, fun p hp => Option.noConfusion hp⟩
      show e.maxPrefix ≤ e.maxPrefix + 2
      omega
    | none =>
      obtain ⟨h1, h2⟩ := createOplogStoreM_of_none e ident b1 b2 b3 hf
      rw [h1, h2, hu1, hu2]
      refine ⟨?_, ?_, ?_⟩
      · omega
      · omega
      · intro p hp
        injection hp with hp1
        omega
  cases op with
  | createRecordStore isOplogNs ident b1 b2 b3 =>
    cases isOplogNs with
    | false => exact hident ident [] b1 b2
    | true => exact hoplog ident b1 b2 b3
  | createSortedData ident extra b1 b2 => exact hident ident extra b1 b2

/-- One unfolding of a run of create operations. -/
theorem runEngineOps_cons (e : EngineState) (op : EngineOp) (rest : List EngineOp) :
    runEngineOps e (op :: rest) =
      ((runEngineOps (applyOp e op).engine rest).1,
        (applyOp e op).allocated.toList ++ (runEngineOps (applyOp e op).engine rest).2) := rfl

/-- Claim C6 (counterexample): after one non-oplog create on a freshly
recovered engine the counter equals the returned prefix, so it is not
strictly greater than every prefix returned so far. -/
theorem c6_counterexample :
    ¬ (∀ p ∈ (runEngineOps freshEngine [.createRecordStore false [97] true true true]).2,
        p < (runEngineOps freshEngine
          [.createRecordStore false [97] true true true]).1.maxPrefix) := by
  decide

/-- Claim C6 (amended): after any sequence of create operations (record
stores, oplog stores, sorted-data interfaces) from any starting engine —
in particular a freshly recovered one — whose allocations stay below the
32-bit wrap of the counter, the max-prefix counter is greater than or
equal to every prefix returned to any caller so far (equality is reached
by the most recent non-oplog allocation, so "strictly greater" fails),
and the counter never decreases. -/
theorem c6_maxPrefix_dominates (e : EngineState) (ops : List EngineOp)
    (hbound : e.maxPrefix + 2 * ops.length < 4294967296) :
    e.maxPrefix ≤ (runEngineOps e ops).1.maxPrefix ∧
    ∀ p ∈ (runEngineOps e ops).2, p ≤ (runEngineOps e ops).1.maxPrefix := by
  induction ops generalizing e with
  | nil =>
    exact ⟨le_refl _, fun p hp => absurd hp (List.not_mem_nil p)⟩
  | cons op rest ih =>
    have hstep : e.maxPrefix + 2 < 4294967296 := by
      rw [List.length_cons] at hbound
      omega
    obtain ⟨h1, h2, h3⟩ := applyOp_bounds e op hstep
    have hbound2 : (applyOp e op).engine.maxPrefix + 2 * rest.length < 4294967296 := by
      rw [List.length_cons] at hbound
      omega
    obtain ⟨ih1, ih2⟩ := ih (applyOp e op).engine hbound2
    rw [runEngineOps_cons]
    refine ⟨le_trans h1 ih1, ?_⟩
    intro p hp
    rcases List.mem_append.mp hp with hp1 | hp1
    · cases halloc : (applyOp e op).allocated with
      | none =>
        rw [halloc] at hp1
        cases hp1
      | some q =>
        rw [halloc] at hp1
        have hpq : p = q := List.mem_singleton.mp hp1
        subst hpq
        exact le_trans (h3 p halloc) ih1
    · exact ih2 p hp1

/-- Claim C6 (witness): an oplog create followed by an index create on the
freshly recovered engine; the counter dominates both returned prefixes. -/
theorem c6_maxPrefix_dominates_witness :
    freshEngine.maxPrefix + 2 * 2 < 4294967296 ∧
    (freshEngine.maxPrefix ≤ (runEngineOps freshEngine
        [.createRecordStore true [111] true true true,
         .createSortedData [105] [3] true true]).1.maxPrefix ∧
      ∀ p ∈ (runEngineOps freshEngine
          [.createRecordStore true [111] true true true,
           .createSortedData [105] [3] true true]).2,
        p ≤ (runEngineOps freshEngine
          [.createRecordStore true [111] true true true,
           .createSortedData [105] [3] true true]).1.maxPrefix) :=
  ⟨by decide,
   c6_maxPrefix_dominates freshEngine
     [.createRecordStore true [111] true true true,
      .createSortedData [105] [3] true true] (by decide)⟩

end RocksVerify
